import Mathlib

/-!
Shallow embedding of the permission-middleware core
(src/lib/permission.js and src/lib/helper.js).

Modelling conventions:
- A permission code is a JavaScript string or number, modelled by `Code`.
- A permission set is the object returned by a getPermissions provider,
  modelled as an association list from codes to booleans; a key that is
  absent corresponds to the JavaScript value undefined.
- The done callback of Permission.prototype.test delivering the boolean b
  is modelled by returning b in the result field of `TestOutcome`; the
  field verifierCalled records whether the custom verifier function
  (stored as this._test in the source) was invoked during the call.
- Thrown errors are modelled with `Except JsError`.
-/

/-- A permission code: a JavaScript string or number (source accepts both). -/
inductive Code where
  | num (n : Int)
  | str (s : String)
deriving Repr, DecidableEq

/-- The errors thrown by the core, one constructor per distinct message:
Missing permission code, Duplicate permission code, Invalid permission test,
Invalid permission, Not implemented. -/
inductive JsError where
  | missingCode
  | duplicateCode
  | invalidVerifier
  | invalidPermission
  | notImplemented
deriving Repr, DecidableEq

/-- A permission set: a map from permission codes to booleans, as returned
by a getPermissions provider.  Association-list representation; a code that
does not occur is the JavaScript value undefined. -/
abbrev PermSet := List (Code × Bool)

/-- Key lookup in a permission set: the JavaScript expression
permissions[this.code], returning none for an absent key (undefined). -/
def lookupCode : PermSet → Code → Option Bool
  | [], _ => none
  | (c, b) :: rest, code => if c = code then b else lookupCode rest code

/-- The JavaScript coercion Boolean(v) applied to a set entry, where the
entry is either a stored boolean or undefined (none). -/
def jsBoolean : Option Bool → Bool
  | none => false
  | some b => b

/-- The custom verifier stored as this._test.  The field arity models the
JavaScript expression this._test.length, which the source inspects to pick
the synchronous or callback calling convention; fn gives the boolean the
verifier produces for a request (for an asynchronous verifier this is the
boolean it eventually passes to the done callback). -/
structure Verifier (Req : Type) where
  arity : Nat
  fn : Req → Bool

/-- The state of a constructed Permission instance: this.code,
this.allowedByDefault and this._test. -/
structure Permission (Req : Type) where
  code : Code
  allowedByDefault : Bool
  _test : Option (Verifier Req)

/-- Outcome of one call of Permission.prototype.test: the boolean handed to
the done callback, plus whether the custom verifier was invoked. -/
structure TestOutcome where
  result : Bool
  verifierCalled : Bool
deriving Repr, DecidableEq

variable {Req : Type}

/-- The default-versus-explicit check of Permission.prototype.test
(source lines 84-88): hasPermission is Boolean(permissions[this.code]) and
isAllowedByDefault is permission === undefined && this.allowedByDefault;
the permission is granted by the base check when either holds. -/
def Permission.baseCheck (p : Permission Req) (ps : PermSet) : Bool :=
  let permission := lookupCode ps p.code
  let hasPermission := jsBoolean permission
  let isAllowedByDefault := permission.isNone && p.allowedByDefault
  hasPermission || isAllowedByDefault

/-- The body of Permission.prototype.test (source lines 83-104) given the
value already returned by this.getPermissions(req).  A falsy permission set
(null) skips straight to done(false).  When the base check grants and a
verifier is stored, the source calls done(this._test(req)) when
this._test.length <= 1 and this._test(req, done) otherwise; in this
sequential model both conventions deliver the boolean fn req. -/
def Permission.testBody (p : Permission Req) (permissions : Option PermSet)
    (req : Req) : TestOutcome :=
  match permissions with
  | some ps =>
    if p.baseCheck ps then
      match p._test with
      | some v =>
        if v.arity ≤ 1 then
          { result := v.fn req, verifierCalled := true }
        else
          { result := v.fn req, verifierCalled := true }
      | none => { result := true, verifierCalled := false }
    else { result := false, verifierCalled := false }
  | none => { result := false, verifierCalled := false }

/-- The getPermissions method effectively bound to an instance: either the
base prototype method of Permission (which always throws Not implemented,
source lines 118-123) or a provider function installed on a subclass
prototype by Permission.create. -/
inductive Provider (Req : Type) where
  | base
  | bound (getPermissions : Req → Option PermSet)

/-- Calling this.getPermissions(req) through the bound provider. -/
def Provider.getPermissions : Provider Req → Req → Except JsError (Option PermSet)
  | .base, _ => .error .notImplemented
  | .bound f, req => .ok (f req)

/-- Permission.prototype.test (source lines 77-105): retrieve the
permission set for the request, then run the body; an exception thrown by
this.getPermissions propagates. -/
def Permission.test (p : Permission Req) (prov : Provider Req) (req : Req) :
    Except JsError TestOutcome :=
  match prov.getPermissions req with
  | .error e => .error e
  | .ok permissions => .ok (p.testBody permissions req)

/-- The argument given to Permission.create: either a function (the only
case in which the subclass prototype gets its own getPermissions, source
lines 160-162) or anything else, including a missing argument. -/
inductive ProviderArg (Req : Type) where
  | func (g : Req → Option PermSet)
  | notFunc

/-- Permission.create (source lines 153-165), modelled by the effective
getPermissions of instances of the returned subclass: a function argument
is installed on the prototype, any other argument leaves the inherited
base method that throws Not implemented. -/
def Permission.create : ProviderArg Req → Provider Req
  | .func g => .bound g
  | .notFunc => .base

/-- JavaScript truthiness of the code argument of the constructor: the
expression !code, where a missing argument (none) is undefined.  Among the
modelled values the falsy ones are undefined, the number 0 and the empty
string. -/
def jsFalsyCode : Option Code → Bool
  | none => true
  | some (.num n) => n == 0
  | some (.str s) => s == ""

/-- The strict comparison code === 0 from the constructor guard. -/
def isZeroCode : Option Code → Bool
  | some (.num n) => n == 0
  | _ => false

/-- The constructor guard !code && code !== 0 (source line 38): the code
argument counts as missing when it is falsy and is not the number 0. -/
def missingCodeCheck (code : Option Code) : Bool :=
  jsFalsyCode code && !(isZeroCode code)

/-- Permission.isUsedCode (source lines 141-143):
Permission._codes.indexOf(code) !== -1, that is membership of the code in
the registry list. -/
def Permission.isUsedCode (codes : List Code) (code : Code) : Bool :=
  codes.any (fun c => decide (c = code))

/-- The verifier argument of the constructor (named test in the source):
falsy (no verifier is stored), a function, or a truthy value that is not a
function (which makes the constructor throw Invalid permission test). -/
inductive VerifierArg (Req : Type) where
  | falsy
  | func (v : Verifier Req)
  | truthyNonFunction

/-- The Permission constructor (source lines 33-67) acting on the registry
Permission._codes.  Returns the registry after the call together with the
constructed instance or the thrown error.  Mirrors the source order: the
missing-code guard, the duplicate-code guard, the push onto
Permission._codes, the field assignments, and only then the verifier
validation - so an invalid verifier throws after the code was pushed. -/
def Permission.construct (codes : List Code) (code : Option Code)
    (allowedByDefault : Bool) (test : VerifierArg Req) :
    List Code × Except JsError (Permission Req) :=
  if missingCodeCheck code then
    (codes, .error .missingCode)
  else
    match code with
    | none => (codes, .error .missingCode)
    | some c =>
      if Permission.isUsedCode codes c then
        (codes, .error .duplicateCode)
      else
        let codes := codes ++ [c]
        match test with
        | .falsy => (codes, .ok ⟨c, allowedByDefault, none⟩)
        | .func v => (codes, .ok ⟨c, allowedByDefault, some v⟩)
        | .truthyNonFunction => (codes, .error .invalidVerifier)

/-- A checkable value as accepted by the combinators in src/lib/helper.js:
a raw test function, a Permission instance (whose .test method closes over
the provider bound to its type), a nested array, or any other value such
as a string (rejected with Invalid permission). -/
inductive Checkable (Req : Type) where
  | fn (f : Req → Bool)
  | perm (p : Permission Req) (getPermissions : Req → Option PermSet)
  | arr (xs : List (Checkable Req))
  | invalid

mutual

/-- The has helper (src/lib/helper.js lines 8-28) on one checkable (the
multi-argument call packs the arguments into an array, which is the arr
case): an array goes to all, a function is returned unchanged, a value
with a .test capability is wrapped into a closure calling that test, and
anything else throws Invalid permission.  Building can throw, hence the
Except at construction time; the produced value is the test closure. -/
def Helper.has (c : Checkable Req) : Except JsError (Req → Bool) :=
  match c with
  | .arr xs => Helper.all xs
  | .fn f => .ok f
  | .perm p g => .ok (fun req => (p.testBody (g req) req).result)
  | .invalid => .error .invalidPermission
termination_by (sizeOf c, 1)

/-- The all combinator (src/lib/helper.js lines 44-58) on the normalized
checkable list: convert the children with getTestArray, then return a
closure that runs each child test on the request and passes the
conjunction of the delivered booleans to done (async.all). -/
def Helper.all (xs : List (Checkable Req)) : Except JsError (Req → Bool) :=
  match Helper.getTestArray xs with
  | .ok tests => .ok (fun req => tests.all (fun t => t req))
  | .error e => .error e
termination_by (sizeOf xs, 2)

/-- The conversion _getTestArray (src/lib/helper.js lines 98-116): each
array element becomes all of that array, every other element goes through
has; an error thrown for one element aborts the construction. -/
def Helper.getTestArray (xs : List (Checkable Req)) :
    Except JsError (List (Req → Bool)) :=
  match xs with
  | [] => .ok []
  | x :: rest =>
    match (match x with
            | .arr ys => Helper.all ys
            | y => Helper.has y),
          Helper.getTestArray rest with
    | .ok t, .ok ts => .ok (t :: ts)
    | .error e, _ => .error e
    | .ok _, .error e => .error e
termination_by (sizeOf xs, 1)

end

/-- The any combinator (src/lib/helper.js lines 72-85) on the normalized
checkable list: convert the children with getTestArray, then return a
closure that runs each child test on the request and passes the
disjunction of the delivered booleans to done (async.any). -/
def Helper.any (xs : List (Checkable Req)) : Except JsError (Req → Bool) :=
  match Helper.getTestArray xs with
  | .ok tests => .ok (fun req => tests.any (fun t => t req))
  | .error e => .error e

mutual

/-- Spec-side meaning used to compare the built composites with the
boolean algebra the spec describes: the value of one checkable on a
request, where a nested array counts as an ALL group of its elements. -/
def chkDenote (c : Checkable Req) (req : Req) : Bool :=
  match c with
  | .fn f => f req
  | .perm p g => (p.testBody (g req) req).result
  | .arr xs => listDenoteAll xs req
  | .invalid => false

/-- Conjunction of the meanings of a list of checkables. -/
def listDenoteAll (xs : List (Checkable Req)) (req : Req) : Bool :=
  match xs with
  | [] => true
  | x :: rest => chkDenote x req && listDenoteAll rest req

end

/-- Fixture: a synchronous verifier that always grants. -/
def vTrue : Verifier Unit := ⟨1, fun _ => true⟩

/-- Fixture: a synchronous verifier that always denies. -/
def vFalse : Verifier Unit := ⟨1, fun _ => false⟩

/-- Fixture: a verifier-less permission with default allow. -/
def pC1 : Permission Unit := ⟨Code.num 1, true, none⟩

/-- Fixture: a default-allow permission whose verifier denies. -/
def pC3 : Permission Unit := ⟨Code.num 3, true, some vFalse⟩

/-- Fixture: a default-allow permission whose verifier grants. -/
def pC4 : Permission Unit := ⟨Code.num 4, true, some vTrue⟩

/-- Fixture: a default-allow permission with a granting verifier, used to
observe that the verifier stays uninvoked on an explicit denial. -/
def pC5 : Permission Unit := ⟨Code.num 5, true, some vTrue⟩

/-- Fixture: a provider that returns a null permission set. -/
def gNull : Unit → Option PermSet := fun _ => none

/-- Fixture: first permission of the nested composite example. -/
def pW1 : Permission Unit := ⟨Code.num 21, false, none⟩

/-- Fixture: provider granting pW1 explicitly. -/
def gW1 : Unit → Option PermSet := fun _ => some [(Code.num 21, true)]

/-- Fixture: second permission of the nested composite example. -/
def pW2 : Permission Unit := ⟨Code.num 22, false, none⟩

/-- Fixture: provider denying pW2 explicitly. -/
def gW2 : Unit → Option PermSet := fun _ => some [(Code.num 22, false)]

/-- Fixture: third permission of the nested composite example. -/
def pW3 : Permission Unit := ⟨Code.num 23, false, none⟩

/-- Fixture: provider denying pW3 explicitly. -/
def gW3 : Unit → Option PermSet := fun _ => some [(Code.num 23, false)]

theorem Checkable.sizeOf_pos (c : Checkable Req) : 0 < sizeOf c := by
  cases c <;> simp_arith

theorem listDenoteAll_eq_map (xs : List (Checkable Req)) (req : Req) :
    listDenoteAll xs req = (xs.map (fun c => chkDenote c req)).all id := by
  induction xs with
  | nil => simp [listDenoteAll]
  | cons x rest ih => simp [listDenoteAll, ih]

theorem apply_all_eq_map (ts : List (Req → Bool)) (req : Req) :
    ts.all (fun t => t req) = (ts.map (fun t => t req)).all id := by
  induction ts with
  | nil => simp
  | cons t rest ih => simp [ih]

theorem apply_any_eq_map (ts : List (Req → Bool)) (req : Req) :
    ts.any (fun t => t req) = (ts.map (fun t => t req)).any id := by
  induction ts with
  | nil => simp
  | cons t rest ih => simp [ih]

theorem getTestArray_cons (x : Checkable Req) (rest : List (Checkable Req)) :
    Helper.getTestArray (x :: rest) =
      match Helper.has x, Helper.getTestArray rest with
      | .ok t, .ok ts => .ok (t :: ts)
      | .error e, _ => .error e
      | .ok _, .error e => .error e := by
  cases x with
  | arr ys =>
    rw [Helper.getTestArray]
    rw [show Helper.has (Checkable.arr ys) = Helper.all ys from by simp [Helper.has]]
  | fn f =>
    simp only [Helper.getTestArray]
  | perm p g =>
    simp only [Helper.getTestArray]
  | invalid =>
    simp only [Helper.getTestArray]

theorem buildSem (Req : Type) : ∀ n : Nat,
    (∀ c : Checkable Req, sizeOf c ≤ n → ∀ t, Helper.has c = .ok t →
      ∀ req, t req = chkDenote c req) ∧
    (∀ xs : List (Checkable Req), sizeOf xs ≤ n →
      ∀ ts, Helper.getTestArray xs = .ok ts →
      ∀ req, ts.map (fun t => t req) = xs.map (fun c => chkDenote c req)) := by
  intro n
  induction n with
  | zero =>
    constructor
    · intro c hc
      exact absurd hc (by have := Checkable.sizeOf_pos c; omega)
    · intro xs hxs
      have : 0 < sizeOf xs := by cases xs <;> simp_arith
      exact absurd hxs (by omega)
  | succ n ih =>
    obtain ⟨ihP, ihQ⟩ := ih
    constructor
    · intro c hc t ht req
      match c with
      | .fn f =>
        simp [Helper.has] at ht
        simp [chkDenote, ← ht]
      | .perm p g =>
        simp [Helper.has] at ht
        simp [chkDenote, ← ht]
      | .invalid =>
        simp [Helper.has] at ht
      | .arr xs =>
        have hsz : sizeOf xs ≤ n := by
          have : sizeOf (Checkable.arr xs) = 1 + sizeOf xs := by simp
          omega
        rw [show Helper.has (Checkable.arr xs) = Helper.all xs by
          simp [Helper.has]] at ht
        cases hgt : Helper.getTestArray xs with
        | error e => simp [Helper.all, hgt] at ht
        | ok ts =>
          simp [Helper.all, hgt] at ht
          have hmap := ihQ xs hsz ts hgt req
          calc t req = ts.all (fun t' => t' req) := by rw [← ht]
            _ = (ts.map (fun t' => t' req)).all id := apply_all_eq_map ts req
            _ = (xs.map (fun c => chkDenote c req)).all id := by rw [hmap]
            _ = listDenoteAll xs req := (listDenoteAll_eq_map xs req).symm
            _ = chkDenote (Checkable.arr xs) req := by simp [chkDenote]
    · intro xs hxs ts hts req
      match xs with
      | [] =>
        simp [Helper.getTestArray] at hts
        simp [← hts]
      | x :: rest =>
        have hx : sizeOf x ≤ n := by
          have := List.cons.sizeOf_spec x rest
          have := Checkable.sizeOf_pos x
          have : 0 < sizeOf rest := by cases rest <;> simp_arith
          omega
        have hrest : sizeOf rest ≤ n := by
          have := List.cons.sizeOf_spec x rest
          have := Checkable.sizeOf_pos x
          omega
        rw [getTestArray_cons] at hts
        cases hh : Helper.has x with
        | error e => simp [hh] at hts
        | ok t =>
          cases hr : Helper.getTestArray rest with
          | error e => simp [hh, hr] at hts
          | ok ts' =>
            simp [hh, hr] at hts
            rw [← hts]
            simp only [List.map]
            rw [ihP x hx t hh req, ihQ rest hrest ts' hr req]

theorem has_sem (c : Checkable Req) (t : Req → Bool) (h : Helper.has c = .ok t)
    (req : Req) : t req = chkDenote c req :=
  (buildSem Req (sizeOf c)).1 c le_rfl t h req

theorem map_all_id {α : Type} (xs : List α) (f : α → Bool) :
    (xs.map f).all id = xs.all f := by
  induction xs with
  | nil => rfl
  | cons x rest ih => simp only [List.map_cons, List.all_cons, ih]; rfl

theorem map_any_id {α : Type} (xs : List α) (f : α → Bool) :
    (xs.map f).any id = xs.any f := by
  induction xs with
  | nil => rfl
  | cons x rest ih => simp only [List.map_cons, List.any_cons, ih]; rfl

theorem all_sem_eq (xs : List (Checkable Req)) (req : Req) (b : Bool)
    (h : (Helper.all xs).map (fun t => t req) = .ok b) :
    b = xs.all (fun c => chkDenote c req) := by
  cases hgt : Helper.getTestArray xs with
  | error e => simp [Helper.all, hgt, Except.map] at h
  | ok ts =>
    simp [Helper.all, hgt, Except.map] at h
    have hmap := (buildSem Req (sizeOf xs)).2 xs le_rfl ts hgt req
    calc b = ts.all (fun t => t req) := h.symm
      _ = (ts.map (fun t => t req)).all id := apply_all_eq_map ts req
      _ = (xs.map (fun c => chkDenote c req)).all id := by rw [hmap]
      _ = xs.all (fun c => chkDenote c req) := map_all_id xs (fun c => chkDenote c req)

theorem any_sem_eq (xs : List (Checkable Req)) (req : Req) (b : Bool)
    (h : (Helper.any xs).map (fun t => t req) = .ok b) :
    b = xs.any (fun c => chkDenote c req) := by
  cases hgt : Helper.getTestArray xs with
  | error e => simp [Helper.any, hgt, Except.map] at h
  | ok ts =>
    simp [Helper.any, hgt, Except.map] at h
    have hmap := (buildSem Req (sizeOf xs)).2 xs le_rfl ts hgt req
    calc b = ts.any (fun t => t req) := h.symm
      _ = (ts.map (fun t => t req)).any id := apply_any_eq_map ts req
      _ = (xs.map (fun c => chkDenote c req)).any id := by rw [hmap]
      _ = xs.any (fun c => chkDenote c req) := map_any_id xs (fun c => chkDenote c req)

/-- C1: for every permission and every non-null permission set returned by
its provider, the default-versus-explicit base check of
Permission.prototype.test grants on an explicit true entry for the code,
denies on an explicit false entry even when allowedByDefault is true, and
on an absent entry grants exactly when allowedByDefault is true. -/
theorem base_check_explicit_overrides_default (Req : Type) (p : Permission Req)
    (ps : PermSet) :
    (lookupCode ps p.code = some true → p.baseCheck ps = true) ∧
    (lookupCode ps p.code = some false → p.baseCheck ps = false) ∧
    (lookupCode ps p.code = none → p.baseCheck ps = p.allowedByDefault) := by
  refine ⟨?_, ?_, ?_⟩ <;> intro h <;> simp [Permission.baseCheck, h, jsBoolean]

theorem base_check_witness : pC1.baseCheck [(Code.num 1, false)] = false :=
  (base_check_explicit_overrides_default Unit pC1 [(Code.num 1, false)]).2.1 (by decide)

/-- C2: for every request context and every list of checkables, the
composite built by all grants iff every child grants and the composite
built by any grants iff at least one child grants, where a nested array
element counts as an ALL group; in the shape any([p1, p2], p3) the
delivered boolean is exactly (p1 AND p2) OR p3, so it denies when only one
of p1, p2 grants and p3 denies. -/
theorem composite_all_any_sem (Req : Type) (xs : List (Checkable Req)) (req : Req) :
    (∀ b : Bool, (Helper.all xs).map (fun t => t req) = .ok b →
      (b = true ↔ ∀ c ∈ xs, chkDenote c req = true)) ∧
    (∀ b : Bool, (Helper.any xs).map (fun t => t req) = .ok b →
      (b = true ↔ ∃ c ∈ xs, chkDenote c req = true)) ∧
    (∀ (p1 p2 p3 : Permission Req) (g1 g2 g3 : Req → Option PermSet) (b : Bool),
      (Helper.any [Checkable.arr [Checkable.perm p1 g1, Checkable.perm p2 g2],
          Checkable.perm p3 g3]).map (fun t => t req) = .ok b →
      b = (((p1.testBody (g1 req) req).result && (p2.testBody (g2 req) req).result) ||
            (p3.testBody (g3 req) req).result)) := by
  refine ⟨?_, ?_, ?_⟩
  · intro b h
    rw [all_sem_eq xs req b h]
    exact List.all_eq_true
  · intro b h
    rw [any_sem_eq xs req b h]
    exact List.any_eq_true
  · intro p1 p2 p3 g1 g2 g3 b h
    rw [any_sem_eq _ req b h]
    simp [chkDenote, listDenoteAll]

theorem composite_witness :
    (false : Bool) =
      (((pW1.testBody (gW1 ()) ()).result && (pW2.testBody (gW2 ()) ()).result) ||
        (pW3.testBody (gW3 ()) ()).result) :=
  (composite_all_any_sem Unit [] ()).2.2 pW1 pW2 pW3 gW1 gW2 gW3 false (by
    rw [show Helper.any [Checkable.arr [Checkable.perm pW1 gW1, Checkable.perm pW2 gW2],
          Checkable.perm pW3 gW3] =
        Helper.any [Checkable.arr [Checkable.perm pW1 gW1, Checkable.perm pW2 gW2],
          Checkable.perm pW3 gW3] from rfl]
    simp [Helper.any, Helper.all, Helper.has, getTestArray_cons, Helper.getTestArray,
      Except.map, Permission.testBody, Permission.baseCheck, lookupCode, jsBoolean,
      pW1, pW2, pW3, gW1, gW2, gW3])

/-- C3: for every permission whose base check grants and that stores a
verifier taken on the synchronous path (arity at most 1), the boolean
delivered by test is exactly the boolean result of the verifier, the
verifier is invoked, and it is applied to the same request context; in
particular a default-allow permission with a verifier returning false
denies. -/
theorem verifier_result_overrides (Req : Type) (p : Permission Req) (ps : PermSet)
    (req : Req) (v : Verifier Req) (hv : p._test = some v) (hsync : v.arity ≤ 1)
    (hgrant : p.baseCheck ps = true) :
    (p.testBody (some ps) req).result = v.fn req ∧
    (p.testBody (some ps) req).verifierCalled = true := by
  simp [Permission.testBody, hgrant, hv, hsync]

theorem verifier_result_witness :
    (pC3.testBody (some []) ()).result = false ∧
    (pC3.testBody (some []) ()).verifierCalled = true := by
  have h := verifier_result_overrides Unit pC3 [] () vFalse rfl (by decide) (by decide)
  exact ⟨h.1.trans rfl, h.2⟩

/-- C4: for every permission and every request context, a provider bound to
the permission type that returns a null permission set makes test deliver
false without invoking the verifier, whatever the default policy and
verifier are; the outcome is an ordinary delivered deny (Except.ok), not a
thrown error. -/
theorem null_set_defined_deny (Req : Type) (p : Permission Req)
    (g : Req → Option PermSet) (req : Req) (hnull : g req = none) :
    Permission.test p (Provider.bound g) req =
      .ok { result := false, verifierCalled := false } := by
  simp [Permission.test, Provider.getPermissions, hnull, Permission.testBody]

theorem null_set_witness :
    Permission.test pC4 (Provider.bound gNull) () =
      .ok { result := false, verifierCalled := false } :=
  null_set_defined_deny Unit pC4 gNull () rfl

/-- C5: for every permission with a stored verifier, whenever the base
check denies (explicit false entry, absent entry with default deny, or a
null permission set), test delivers false and the verifier function is
never invoked. -/
theorem deny_short_circuits_verifier (Req : Type) (p : Permission Req)
    (v : Verifier Req) (pso : Option PermSet) (req : Req)
    (_hv : p._test = some v)
    (hdeny : ∀ ps, pso = some ps → p.baseCheck ps = false) :
    p.testBody pso req = { result := false, verifierCalled := false } := by
  cases pso with
  | none => simp [Permission.testBody]
  | some ps => simp [Permission.testBody, hdeny ps rfl]

theorem deny_short_circuit_witness :
    pC5.testBody (some [(Code.num 5, false)]) () =
      { result := false, verifierCalled := false } := by
  have h := deny_short_circuits_verifier Unit pC5 vTrue
    (some [(Code.num 5, false)]) () rfl (by intro ps hps; cases hps; decide)
  exact h

/-- C6: for every valid fresh code, construction succeeds and registers the
code, and every later construction attempt with the same code fails with
the duplicate-code error while the registry still contains the code, so
registered codes stay unique. -/
theorem construct_duplicate_code (Req : Type) (codes : List Code) (c : Code)
    (aD aD' : Bool) (v v' : VerifierArg Req)
    (hvalid : missingCodeCheck (some c) = false)
    (hfresh : Permission.isUsedCode codes c = false)
    (hv : v ≠ VerifierArg.truthyNonFunction) :
    (∃ p : Permission Req,
      (Permission.construct codes (some c) aD v).2 = .ok p ∧ p.code = c) ∧
    Permission.isUsedCode (Permission.construct codes (some c) aD v).1 c = true ∧
    (Permission.construct (Permission.construct codes (some c) aD v).1
        (some c) aD' v').2 = .error .duplicateCode ∧
    Permission.isUsedCode
      (Permission.construct (Permission.construct codes (some c) aD v).1
        (some c) aD' v').1 c = true := by
  have hused : Permission.isUsedCode (codes ++ [c]) c = true := by
    simp [Permission.isUsedCode]
  have hfst : (Permission.construct codes (some c) aD v).1 = codes ++ [c] := by
    cases v with
    | falsy => simp [Permission.construct, hvalid, hfresh]
    | func w => simp [Permission.construct, hvalid, hfresh]
    | truthyNonFunction => exact absurd rfl hv
  have hdup : ∀ (aD₂ : Bool) (v₂ : VerifierArg Req),
      Permission.construct (codes ++ [c]) (some c) aD₂ v₂ =
        (codes ++ [c], .error .duplicateCode) := by
    intro aD₂ v₂
    simp [Permission.construct, hvalid, hused]
  refine ⟨?_, ?_, ?_, ?_⟩
  · cases v with
    | falsy =>
      exact ⟨⟨c, aD, none⟩, by simp [Permission.construct, hvalid, hfresh], rfl⟩
    | func w =>
      exact ⟨⟨c, aD, some w⟩, by simp [Permission.construct, hvalid, hfresh], rfl⟩
    | truthyNonFunction => exact absurd rfl hv
  · rw [hfst]; exact hused
  · rw [hfst, hdup aD' v']
  · rw [hfst, hdup aD' v']; exact hused

theorem construct_duplicate_witness :
    (Permission.construct
      (Permission.construct ([] : List Code) (some (Code.num 6)) true
        (VerifierArg.falsy : VerifierArg Unit)).1
      (some (Code.num 6)) false (VerifierArg.falsy : VerifierArg Unit)).2 =
      .error .duplicateCode :=
  (construct_duplicate_code Unit [] (Code.num 6) true false
    VerifierArg.falsy VerifierArg.falsy (by decide) (by decide)
    (fun h => VerifierArg.noConfusion h)).2.2.1

/-- C7: construction with an absent code (undefined or the empty string)
fails with the missing-code error, while the number 0 is a valid present
code: on a registry not yet containing it, construction with code 0
succeeds and produces a permission whose code is 0. -/
theorem missing_code_and_zero (Req : Type) (codes : List Code) (aD : Bool) :
    (Permission.construct codes none aD (VerifierArg.falsy : VerifierArg Req)).2 =
      .error .missingCode ∧
    (Permission.construct codes (some (Code.str "")) aD
      (VerifierArg.falsy : VerifierArg Req)).2 = .error .missingCode ∧
    (Permission.isUsedCode codes (Code.num 0) = false →
      (Permission.construct codes (some (Code.num 0)) aD
        (VerifierArg.falsy : VerifierArg Req)).2 = .ok ⟨Code.num 0, aD, none⟩) := by
  refine ⟨?_, ?_, ?_⟩
  · simp [Permission.construct, missingCodeCheck, jsFalsyCode, isZeroCode]
  · simp [Permission.construct, missingCodeCheck, jsFalsyCode, isZeroCode]
  · intro hfresh
    simp [Permission.construct, missingCodeCheck, jsFalsyCode, isZeroCode, hfresh]

theorem zero_code_witness :
    (Permission.construct [] (some (Code.num 0)) true
      (VerifierArg.falsy : VerifierArg Unit)).2 = .ok ⟨Code.num 0, true, none⟩ :=
  (missing_code_and_zero Unit [] true).2.2 (by decide)

/-- C8: evaluating test on a base Permission, or on an instance of a type
created via Permission.create from a non-function or missing provider,
fails with the not-implemented error because no permission-set provider is
bound; a type created from a function provider uses that function as its
getPermissions. -/
theorem not_implemented_without_provider (Req : Type) :
    (∀ (p : Permission Req) (req : Req),
      Permission.test p Provider.base req = .error .notImplemented) ∧
    (∀ (p : Permission Req) (req : Req),
      Permission.test p (Permission.create ProviderArg.notFunc) req =
        .error .notImplemented) ∧
    (∀ g : Req → Option PermSet,
      Permission.create (ProviderArg.func g) = Provider.bound g) := by
  refine ⟨?_, ?_, ?_⟩
  · intro p req
    simp [Permission.test, Provider.getPermissions]
  · intro p req
    simp [Permission.test, Permission.create, Provider.getPermissions]
  · intro g
    simp [Permission.create]

/-- C9: the has helper returns a raw function argument unchanged, wraps a
Permission-like value with a .test capability into a test bound to it,
turns an array into all of that array, and fails with the
invalid-permission error, at combinator-build time, on any other value. -/
theorem has_normalizes (Req : Type) :
    (∀ f : Req → Bool, Helper.has (Checkable.fn f) = .ok f) ∧
    (∀ (p : Permission Req) (g : Req → Option PermSet),
      Helper.has (Checkable.perm p g) =
        .ok (fun req => (p.testBody (g req) req).result)) ∧
    (∀ xs : List (Checkable Req), Helper.has (Checkable.arr xs) = Helper.all xs) ∧
    Helper.has (Checkable.invalid : Checkable Req) = .error .invalidPermission := by
  refine ⟨?_, ?_, ?_, ?_⟩
  · intro f
    simp [Helper.has]
  · intro p g
    simp [Helper.has]
  · intro xs
    simp [Helper.has]
  · simp [Helper.has]

/-- C10: construction is not atomic on the invalid-verifier path: with a
valid fresh code and a truthy non-function verifier argument, the
constructor throws the invalid-verifier error after the code has been
pushed into the registry, and any later construction with the same code,
even with a valid verifier argument, fails with the duplicate-code
error. -/
theorem construct_invalid_verifier_registers (Req : Type) (codes : List Code)
    (c : Code) (aD : Bool)
    (hvalid : missingCodeCheck (some c) = false)
    (hfresh : Permission.isUsedCode codes c = false) :
    Permission.construct codes (some c) aD
      (VerifierArg.truthyNonFunction : VerifierArg Req) =
      (codes ++ [c], .error .invalidVerifier) ∧
    (∀ (aD' : Bool) (v' : VerifierArg Req),
      (Permission.construct (codes ++ [c]) (some c) aD' v').2 =
        .error .duplicateCode) := by
  constructor
  · simp [Permission.construct, hvalid, hfresh]
  · intro aD' v'
    have hused : Permission.isUsedCode (codes ++ [c]) c = true := by
      simp [Permission.isUsedCode]
    simp [Permission.construct, hvalid, hused]

theorem invalid_verifier_witness :
    Permission.construct [] (some (Code.str "w10")) false
      (VerifierArg.truthyNonFunction : VerifierArg Unit) =
      ([Code.str "w10"], .error .invalidVerifier) ∧
    (Permission.construct [Code.str "w10"] (some (Code.str "w10")) true
      (VerifierArg.func vTrue)).2 = .error .duplicateCode := by
  have h := construct_invalid_verifier_registers Unit [] (Code.str "w10") false
    (by decide) (by decide)
  exact ⟨h.1, h.2 true (VerifierArg.func vTrue)⟩
